import Mathlib

/-!
Shallow embedding of the `rewind` crate (src/atom.rs, src/stack.rs).

External state is threaded explicitly: a Rust closure `FnOnce(T) -> R`
with side effects is modelled as `T → St → St × R`, where `St` is the
type of the external state it touches.  `Option`/`ManuallyDrop` slots
become `Option` fields.  In Rust a consuming method (`undo(self)`,
`decay(self)`) still runs the type's `Drop` glue on `self` when its body
ends, so every modelled consuming operation includes that trailing drop.
-/

namespace Rewind

/-- `Simple<T, R, Undo>` (atom.rs 10–13): a stored value together with an
optional one-shot undo closure. -/
structure Simple (T R St : Type) where
  val : T
  undo : Option (T → St → St × R)

/-- `Simple::new` (atom.rs 16–21). -/
def Simple.new {T R St : Type} (v : T) (f : T → St → St × R) : Simple T R St :=
  ⟨v, some f⟩

/-- `Simple::undo_mut` (atom.rs 22–28): takes the undo slot; when it is
still present, fires it on the stored value, yielding the closure's
result and the new external state; otherwise does nothing. -/
def Simple.undo_mut {T R St : Type} (a : Simple T R St) (s : St) :
    Option R × Simple T R St × St :=
  match a.undo with
  | some f =>
    let (s', r) := f a.val s
    (some r, { a with undo := none }, s')
  | none => (none, a, s)

/-- `impl Drop for Simple` (atom.rs 57–61): drop runs `undo_mut`,
discarding its result. -/
def Simple.dropRun {T R St : Type} (a : Simple T R St) (s : St) : St :=
  (a.undo_mut s).2.2

/-- `<Simple as Atom>::undo` (atom.rs 41–43): `self.undo_mut().unwrap()`
(`none` models the unreachable panic of `unwrap`); the consumed atom is
then dropped, which finds the slot already empty. -/
def Simple.undoOp {T R St : Type} (a : Simple T R St) (s : St) :
    Option (R × St) :=
  match a.undo_mut s with
  | (some r, a', s') => some (r, a'.dropRun s')
  | (none, _, _) => none

/-- `<Simple as Atom>::decay` (atom.rs 51–54): the undo closure is taken
and discarded without being invoked, the stored value is returned; the
trailing drop of the consumed atom finds an empty slot and does
nothing. -/
def Simple.decay {T R St : Type} (a : Simple T R St) (s : St) : T × St :=
  let emptied : Simple T R St := { a with undo := none }
  (a.val, emptied.dropRun s)

/-- `Owning<T, Undo>` (atom.rs 71–74): an inner `Simple` holding the
snapshot cloned at creation, plus the live copy `stored`.  `T : Clone`
in Rust; cloning a pure Lean value is the identity. -/
structure Owning (T St : Type) where
  val : Option (Simple T T St)
  stored : T

/-- `Owning::new` (atom.rs 76–84): the inner `Simple` gets
`val.clone()`, the live `stored` field gets `val`. -/
def Owning.new {T St : Type} (v : T) (f : T → St → St × T) : Owning T St :=
  ⟨some (Simple.new v f), v⟩

/-- `Owning::get` / `Deref` (atom.rs 85–87, 104–110): the live copy. -/
def Owning.get {T St : Type} (a : Owning T St) : T :=
  a.stored

/-- `Owning::get_mut` / `DerefMut` (atom.rs 88–90, 112–116): caller
mutation of the live copy, modelled by applying `g` to it. -/
def Owning.mutate {T St : Type} (a : Owning T St) (g : T → T) : Owning T St :=
  { a with stored := g a.stored }

/-- `Owning::undo_mut` (atom.rs 91–95): takes the inner `Simple` (when
still present) and runs its consuming `undo` (whose inner slot is always
present while `val` is, so its own unwrap cannot fire). -/
def Owning.undo_mut {T St : Type} (a : Owning T St) (s : St) :
    Option T × Owning T St × St :=
  match a.val with
  | some sp =>
    match sp.undoOp s with
    | some (r, s') => (some r, { a with val := none }, s')
    | none => (none, { a with val := none }, s)
  | none => (none, a, s)

/-- `impl Drop for Owning` (atom.rs 98–102): drop runs `undo_mut`,
discarding its result. -/
def Owning.dropRun {T St : Type} (a : Owning T St) (s : St) : St :=
  (a.undo_mut s).2.2

/-- `<Owning as Atom>::undo` (atom.rs 129–131):
`self.undo_mut().unwrap()`; the trailing drop of the consumed atom finds
`val` already taken. -/
def Owning.undoOp {T St : Type} (a : Owning T St) (s : St) :
    Option (T × St) :=
  match a.undo_mut s with
  | (some r, a', s') => some (r, a'.dropRun s')
  | (none, _, _) => none

/-- `<Owning as Atom>::decay` (atom.rs 142–146): the inner `Simple` is
taken (`unwrap`, modelled by the `Option`) and decayed — its snapshot
and its undo closure are discarded, the external state untouched — and
the live `stored` value is returned; the trailing drop finds `val`
empty. -/
def Owning.decay {T St : Type} (a : Owning T St) (s : St) :
    Option (T × St) :=
  a.val.map fun sp =>
    let (_, s') := sp.decay s
    (a.stored, (({ a with val := none } : Owning T St)).dropRun s')

/-- The borrow-rule violation that makes `RefCell::borrow_mut` panic. -/
inductive BorrowViolation where
  | doubleMutBorrow
deriving DecidableEq

/-- `Encased<S>` (atom.rs 152–154) is `Rc<RefCell<S>>`.  The handle and
the `parent` fields of all `SideEffect`s chained from it are clones of
one `Rc`, so they alias a single cell; that one cell is modelled here
and threaded explicitly through every operation.  `mutBorrows` is the
`RefCell`'s count of outstanding mutable borrows. -/
structure Encased (S : Type) where
  s : S
  mutBorrows : Nat
deriving DecidableEq

/-- `Encased::new` (atom.rs 179–181): fresh resource, no outstanding
borrow. -/
def Encased.new {S : Type} (s : S) : Encased S :=
  ⟨s, 0⟩

/-- `SideEffect<T, R, S, Undo>` (atom.rs 165–169): the sub-operation's
stored result `value` and its optional undo closure.  Its `parent` field
is the shared cell, which is threaded explicitly. -/
structure SideEffect (T R S : Type) where
  undo : Option (S → T → S × R)
  value : T

/-- `Encased::peel_mut` (atom.rs 170–178): `borrow_mut` panics when a
mutable borrow is already outstanding; otherwise `act` runs on the
resource while the borrow is held, and the borrow guard is a temporary
dropped at the end of that statement, so the returned cell again has no
outstanding borrow.  The new `SideEffect` stores `act`'s result and the
undo closure. -/
def Encased.peel_mut {S R Ru : Type} (c : Encased S) (act : S → S × R)
    (undo : S → R → S × Ru) :
    Except BorrowViolation (SideEffect R Ru S × Encased S) :=
  if c.mutBorrows ≠ 0 then .error .doubleMutBorrow
  else
    let (s', r) := act c.s
    .ok (⟨some undo, r⟩, ⟨s', c.mutBorrows⟩)

/-- `SideEffect::peel_mut` (atom.rs 204–210): delegates to
`self.parent.peel_mut` on the shared cell; `self` itself is untouched
and returned unchanged. -/
def SideEffect.peel_mut {T R S Rv Ru : Type} (se : SideEffect T R S)
    (c : Encased S) (act : S → S × Rv) (undo : S → Rv → S × Ru) :
    Except BorrowViolation (SideEffect Rv Ru S × SideEffect T R S × Encased S) :=
  (Encased.peel_mut c act undo).map fun p => (p.1, se, p.2)

/-- `impl Drop for SideEffect` (atom.rs 224–232): when the undo slot is
still present, the closure fires on the parent resource (reached through
the raw `as_ptr` deref of atom.rs 190–194, which takes no `RefCell`
borrow). -/
def SideEffect.dropRun {T R S : Type} (se : SideEffect T R S)
    (c : Encased S) : Encased S :=
  match se.undo with
  | some f => ⟨(f c.s se.value).1, c.mutBorrows⟩
  | none => c

/-- `<SideEffect as Atom>::undo` (atom.rs 237–240): take the value and
the undo closure (`unwrap`, modelled by the `Option`), fire it on the
parent resource; the trailing drop of the consumed atom finds the slot
empty. -/
def SideEffect.undoOp {T R S : Type} (se : SideEffect T R S)
    (c : Encased S) : Option (R × Encased S) :=
  se.undo.map fun f =>
    let (s', r) := f c.s se.value
    (r, ((⟨none, se.value⟩ : SideEffect T R S)).dropRun ⟨s', c.mutBorrows⟩)

/-- `<SideEffect as Atom>::decay` (atom.rs 242–245): discard the undo
closure without invoking it, return the stored value; the trailing drop
finds the slot empty and leaves the resource untouched. -/
def SideEffect.decayOp {T R S : Type} (se : SideEffect T R S)
    (c : Encased S) : T × Encased S :=
  (se.value, ((⟨none, se.value⟩ : SideEffect T R S)).dropRun c)

/-- One type-erased member of a `Stack` (stack.rs 5–25):
`Box<dyn Atom<Cancel = Box<dyn Any>, Undo = Box<dyn Any>>>`, produced by
wrapping an atom in `StackAtom`.  stack.rs targets the `Atom` trait
revision whose discard operation is `Cancel`/`cancel` (the operation
atom.rs names `Decay`/`decay`).  The erased `Box<dyn Any>` results are
modelled by one fixed type `V`.  `dropFire` is the member's drop glue:
`StackAtom::drop` runs `drop(&mut self.0)` — a no-op on a mutable
reference — after which the inner atom's own `Drop` fires. -/
structure StackEl (St V : Type) where
  undoFire : St → St × V
  cancelFire : St → St × V
  dropFire : St → St

/-- `Stack` (stack.rs 26–29): a vector of type-erased atoms; index 0
holds the oldest (first-pushed) member. -/
structure Stack (St V : Type) where
  atoms : List (StackEl St V)

/-- `Stack::new` (stack.rs 38–40). -/
def Stack.new {St V : Type} : Stack St V :=
  ⟨[]⟩

/-- `Stack::push` (stack.rs 31–34): `Vec::push` appends at the end. -/
def Stack.push {St V : Type} (st : Stack St V) (a : StackEl St V) :
    Stack St V :=
  ⟨st.atoms ++ [a]⟩

/-- `Stack::pop` (stack.rs 35–37): `Vec::pop` removes and returns the
last element, `None` on an empty vector, firing nothing. -/
def Stack.pop {St V : Type} (st : Stack St V) :
    Option (StackEl St V) × Stack St V :=
  (st.atoms.getLast?, ⟨st.atoms.dropLast⟩)

/-- `self.atoms.into_iter().map(..).collect()` (stack.rs 60, 64): runs
`f` over the members in `Vec::into_iter` order — index 0, the oldest
member, first — threading the external state and collecting the erased
results in that order. -/
def Stack.runAll {St V : Type} (members : List (StackEl St V))
    (f : StackEl St V → St → St × V) (s : St) : List V × St :=
  match members with
  | [] => ([], s)
  | a :: rest =>
    let (s', v) := f a s
    let (vs, s'') := Stack.runAll rest f s'
    (v :: vs, s'')

/-- `<Stack as Atom>::undo` (stack.rs 59–61): fires every member's
`undo` in `into_iter` order (first-pushed first), collecting results. -/
def Stack.undoOp {St V : Type} (st : Stack St V) (s : St) : List V × St :=
  Stack.runAll st.atoms (fun a => a.undoFire) s

/-- `<Stack as Atom>::cancel` (stack.rs 63–65): discards every member's
compensation in `into_iter` order (first-pushed first), collecting the
cancellation payloads. -/
def Stack.cancelOp {St V : Type} (st : Stack St V) (s : St) : List V × St :=
  Stack.runAll st.atoms (fun a => a.cancelFire) s

/-- `impl Drop for Stack` (stack.rs 42–44): the explicit `drop` body is
empty; the `atoms` vector is then dropped, which drops its elements from
index 0 upward, each element's drop glue firing the still-armed inner
atom's compensation. -/
def Stack.dropRun {St V : Type} (st : Stack St V) (s : St) : St :=
  st.atoms.foldl (fun s a => a.dropFire s) s

/-- `StackedAtom::chain` (stack.rs 46–53): a fresh two-member stack,
`self` pushed first, `other` second. -/
def StackEl.chain {St V : Type} (a b : StackEl St V) : Stack St V :=
  (Stack.new.push a).push b

/-- Instruments a compensation closure of `Simple`/`Owning` shape so
that each invocation also bumps a counter carried in the state, making
the number of firings observable. -/
def counted {T R St : Type} (f : T → St → St × R) :
    T → St × Nat → (St × Nat) × R :=
  fun v sn =>
    let (s', r) := f v sn.1
    ((s', sn.2 + 1), r)

/-- Instruments a compensation closure of `SideEffect` shape
(`FnOnce(&mut S, T) -> R`) with a firing counter carried in the shared
resource. -/
def countedSE {T R S : Type} (f : S → T → S × R) :
    S × Nat → T → (S × Nat) × R :=
  fun sn v =>
    let (s', r) := f sn.1 v
    ((s', sn.2 + 1), r)

/-- A type-erased stack member that records its own firing in a log of
labels: its compensation (fired by `undo` or by drop-glue abandonment)
appends its label to the log, and every operation reports the label as
its erased payload. -/
def labelEl (name : String) : StackEl (List String) String where
  undoFire := fun s => (s ++ [name], name)
  cancelFire := fun s => (s, name)
  dropFire := fun s => s ++ [name]

/-- The stack of C1's failing input: units `u1`, `u2`, `u3` pushed in
that order. -/
def c1Stack : Stack (List String) String :=
  ((Stack.new.push (labelEl "u1")).push (labelEl "u2")).push (labelEl "u3")

/-- C2's scenario, mirroring the repository test
`encasing_cannot_leak_abstraction_and_cause_panic_due_to_multiple_borrows`
(lib.rs 102–107): wrap `[1, 2, 3]`, start one sub-operation, keep its
`SideEffect` un-consumed, and start a second sub-operation from the same
handle.  Returns whether the first `SideEffect` is still armed at the
moment of the second call, paired with the second call's outcome. -/
def c2Run :
    Bool × Except BorrowViolation (SideEffect Unit Unit (List Nat) × Encased (List Nat)) :=
  match Encased.peel_mut (Encased.new [1, 2, 3])
      (fun s => (s ++ [4], ())) (fun s _ => (s.dropLast, ())) with
  | .error e => (false, .error e)
  | .ok (b1, c1) =>
    (b1.undo.isSome,
     Encased.peel_mut c1 (fun s => (s ++ [5], ())) (fun s _ => (s.dropLast, ())))

/-- C3's scenario (spec §8): an `Owning` atom over `["a", "b"]` with an
identity-shaped compensation, whose live copy the caller then mutates to
`["a", "b", "c"]`. -/
def c3Atom : Owning (List String) Unit :=
  (Owning.new ["a", "b"] (fun v s => (s, v))).mutate (fun l => l ++ ["c"])

/-- `Vec::pop` as a sub-operation action: removes and returns the last
element. -/
def popAct (s : List Nat) : List Nat × Option Nat :=
  (s.dropLast, s.getLast?)

/-- The compensation of the pop sub-operation (lib.rs 111–118): push the
popped element back when there was one. -/
def pushBackUndo (s : List Nat) (v : Option Nat) : List Nat × Unit :=
  match v with
  | some x => (s ++ [x], ())
  | none => (s, ())

/-- C9's scenario (spec §8): wrap `[1, 2, 3]`, pop twice through the
chain, undo only the second `SideEffect`; reports the popped values, the
resource contents afterwards, and whether the first `SideEffect` is
still armed. -/
def c9Run : Bool :=
  match Encased.peel_mut (Encased.new [1, 2, 3]) popAct pushBackUndo with
  | .error _ => false
  | .ok (se1, c1) =>
    match se1.peel_mut c1 popAct pushBackUndo with
    | .error _ => false
    | .ok (se2, se1b, c2) =>
      se1b.value == some 3 && se2.value == some 2 && c2.s == [1] &&
      match se2.undoOp c2 with
      | none => false
      | some (_, c3) => c3.s == [1, 2] && se1b.undo.isSome

/-- C1: at the failing input — three units pushed in order `u1`, `u2`,
`u3`, each unit's compensation appending its label to a shared log — the
Stack fires compensations in PUSH order on every path: `undo` fires and
collects `u1, u2, u3` (stack.rs 59–61 iterates `into_iter`, index 0
first), `cancel` discards and collects in the same order (stack.rs
63–65), and abandonment (empty `Drop` body, stack.rs 42–44, then the
vector dropping its elements front to back) also fires `u1, u2, u3` —
not the reverse order `u3, u2, u1` that the claim states. -/
theorem C1_stack_fires_in_push_order :
    (c1Stack.undoOp []).2 = ["u1", "u2", "u3"] ∧
    (c1Stack.undoOp []).1 = ["u1", "u2", "u3"] ∧
    (c1Stack.cancelOp []).1 = ["u1", "u2", "u3"] ∧
    c1Stack.dropRun [] = ["u1", "u2", "u3"] ∧
    (["u1", "u2", "u3"] : List String) ≠ ["u3", "u2", "u1"] :=
  ⟨rfl, rfl, rfl, rfl, by decide⟩

/-- C2 (counterexample): beginning a second sub-operation via `peel_mut`
while the first sub-operation's `SideEffect` is still un-consumed does
NOT panic: at the concrete input of the repository's own test (wrap
`[1, 2, 3]`, push 4, keep the `SideEffect`, push 5), the first
`SideEffect` is still armed and the second `peel_mut` returns
successfully — because the `RefCell` borrow taken inside `peel_mut` is
released before it returns, a live `SideEffect` holds no borrow. -/
theorem C2_second_peel_mut_succeeds_counterexample :
    c2Run.1 = true ∧
    c2Run.2 = .ok (⟨some fun s _ => (s.dropLast, ()), ()⟩, ⟨[1, 2, 3, 4, 5], 0⟩) :=
  ⟨rfl, rfl⟩

/-- C2 (amended): for every resource and every pair of sub-operations,
starting the second sub-operation from the same handle while the first
`SideEffect` is still un-consumed succeeds (no panic): both `peel_mut`
calls return `ok`, and the first `SideEffect`'s compensation is still
armed after the second call.  The `borrow_mut` panic inside `peel_mut`
can only fire while a borrow is outstanding, and the borrow exists only
during the `act` callback within a single `peel_mut` call. -/
theorem C2_amended_no_panic_between_sub_operations
    (S R1 Ru1 R2 Ru2 : Type) (s0 : S)
    (a1 : S → S × R1) (u1 : S → R1 → S × Ru1)
    (a2 : S → S × R2) (u2 : S → R2 → S × Ru2) :
    ∃ se1 c1 se2 c2,
      Encased.peel_mut (Encased.new s0) a1 u1 = .ok (se1, c1) ∧
      Encased.peel_mut c1 a2 u2 = .ok (se2, c2) ∧
      se1.undo.isSome = true :=
  ⟨⟨some u1, (a1 s0).2⟩, ⟨(a1 s0).1, 0⟩,
   ⟨some u2, (a2 (a1 s0).1).2⟩, ⟨(a2 (a1 s0).1).1, 0⟩, rfl, rfl, rfl⟩

/-- C3 (counterexample): at the spec's own concrete input — an `Owning`
atom over `["a", "b"]` whose live copy is then mutated to
`["a", "b", "c"]` — `decay` returns the live, mutated copy
`["a", "b", "c"]`, not the unmodified snapshot `["a", "b"]` the claim
states (atom.rs 142–146 returns `self.stored`, and its doc comment says
"Returns the modified part"). -/
theorem C3_decay_returns_live_counterexample :
    c3Atom.decay () = some (["a", "b", "c"], ()) ∧
    (["a", "b", "c"] : List String) ≠ ["a", "b"] :=
  ⟨rfl, by decide⟩

/-- C3 (amended): for every `Owning` atom built from `v` and mutated by
`g`, `decay` discards the compensation — the instrumented firing counter
stays at 0 and the external state is untouched — and returns the live,
possibly-mutated copy `g v`; the `get` accessor also reads the live
value.  No accessor returns the snapshot. -/
theorem C3_amended_decay_returns_live (T St : Type) (v : T) (g : T → T)
    (f : T → St → St × T) (s : St) :
    ((Owning.new v f).mutate g).decay s = some (g v, s) ∧
    ((Owning.new v f).mutate g).get = g v ∧
    ((Owning.new v (counted f)).mutate g).decay (s, 0) = some (g v, (s, 0)) :=
  ⟨rfl, rfl, rfl⟩

/-- C4: abandoning a fresh `Simple` atom built from `(v, f)` — its
`Drop` runs `undo_mut` — has exactly the effect of calling `f v` on the
external state directly, and (instrumented) invokes the stored
compensation exactly once on the stored value. -/
theorem C4_abandonment_equals_direct_call (T R St : Type) (v : T)
    (f : T → St → St × R) (s : St) :
    (Simple.new v f).dropRun s = (f v s).1 ∧
    (Simple.new v (counted f)).dropRun (s, 0) = ((f v s).1, 1) :=
  ⟨rfl, rfl⟩

/-- C5: `decay` on a fresh `Simple` atom built from `(v, f)` returns `v`
unchanged and leaves the external state exactly as it was; the
instrumented firing counter stays at 0, so `f` is never invoked — and
the trailing drop of the consumed atom (included in `Simple.decay`)
performs no compensation. -/
theorem C5_decay_is_effect_free (T R St : Type) (v : T)
    (f : T → St → St × R) (s : St) :
    (Simple.new v f).decay s = (v, s) ∧
    (Simple.new v (counted f)).decay (s, 0) = (v, (s, 0)) :=
  ⟨rfl, rfl⟩

/-- C6: at-most-once firing, for each compensable kind with the firing
counter instrumented into the state.  For `Simple`: the undo lifecycle
fires `f` exactly once, the decay lifecycle fires it zero times, the
abandonment lifecycle fires it exactly once, and a unit whose slot has
already been taken fires nothing when dropped (so after decay — which
empties the slot — abandonment is a no-op).  Likewise for `Owning` and
for `SideEffect`. -/
theorem C6_compensation_fires_at_most_once
    (T R S St : Type) (v : T) (f : T → St → St × R)
    (fo : T → St → St × T) (fs : S → T → S × R)
    (s : St) (sh : S) (b : Nat) :
    ((Simple.new v (counted f)).undoOp (s, 0) = some ((f v s).2, ((f v s).1, 1)) ∧
     (Simple.new v (counted f)).decay (s, 0) = (v, (s, 0)) ∧
     (Simple.new v (counted f)).dropRun (s, 0) = ((f v s).1, 1) ∧
     (⟨v, none⟩ : Simple T R St).dropRun s = s) ∧
    ((Owning.new v (counted fo)).undoOp (s, 0) = some ((fo v s).2, ((fo v s).1, 1)) ∧
     (Owning.new v (counted fo)).decay (s, 0) = some (v, (s, 0)) ∧
     (Owning.new v (counted fo)).dropRun (s, 0) = ((fo v s).1, 1) ∧
     (⟨none, v⟩ : Owning T St).dropRun s = s) ∧
    ((⟨some (countedSE fs), v⟩ : SideEffect T R (S × Nat)).undoOp ⟨(sh, 0), b⟩ =
        some ((fs sh v).2, ⟨((fs sh v).1, 1), b⟩) ∧
     (⟨some (countedSE fs), v⟩ : SideEffect T R (S × Nat)).decayOp ⟨(sh, 0), b⟩ =
        (v, ⟨(sh, 0), b⟩) ∧
     (⟨some (countedSE fs), v⟩ : SideEffect T R (S × Nat)).dropRun ⟨(sh, 0), b⟩ =
        ⟨((fs sh v).1, 1), b⟩ ∧
     (⟨none, v⟩ : SideEffect T R S).dropRun ⟨sh, b⟩ = ⟨sh, b⟩) :=
  ⟨⟨rfl, rfl, rfl, rfl⟩, ⟨rfl, rfl, rfl, rfl⟩, ⟨rfl, rfl, rfl, rfl⟩⟩

/-- C8: for every `Owning` atom built from `v` with compensation `f` and
every caller mutation `g` of the live copy, `undo` fires `f` on the
snapshot taken at creation — equal to the original `v` — and returns
`f`'s result; the mutated live contents `g v` appear nowhere in the
result, and (instrumented) the compensation fires exactly once. -/
theorem C8_undo_fires_on_snapshot (T St : Type) (v : T)
    (f : T → St → St × T) (g : T → T) (s : St) :
    ((Owning.new v f).mutate g).undoOp s = some ((f v s).2, (f v s).1) ∧
    ((Owning.new v f).mutate g).get = g v ∧
    ((Owning.new v (counted f)).mutate g).undoOp (s, 0) =
      some ((f v s).2, ((f v s).1, 1)) :=
  ⟨rfl, rfl, rfl⟩

/-- C9: at the spec's concrete input — wrap `[1, 2, 3]`, pop twice
through the `SideEffect` chain (yielding `3` then `2`, resource `[1]`),
then undo only the second link — the resource becomes `[1, 2]` and the
first `SideEffect` is still armed (Active): undoing a later link fires
only that link's own compensation, never an earlier link's. -/
theorem C9_undo_is_per_link : c9Run = true :=
  rfl

/-- C10: `pop` on the empty `Stack` returns `none` and leaves the stack
empty, and `pop` after pushing `a` onto any stack `st` returns exactly
`a` — compensation slot untouched — together with exactly the remaining
stack `st`; `pop` never touches the external state (it is a pure
function of the stack alone). -/
theorem C10_pop_removes_last_without_firing (St V : Type)
    (st : Stack St V) (a : StackEl St V) :
    (Stack.new : Stack St V).pop = (none, Stack.new) ∧
    (st.push a).pop = (some a, st) := by
  refine ⟨rfl, ?_⟩
  simp only [Stack.pop, Stack.push, List.getLast?_concat, List.dropLast_concat]

/-- C7: round-trip law.  For every resource `s0` and sub-operations
`op1 = (act1, undo1)`, `op2 = (act2, undo2)` whose compensations are
true inverses of their actions, performing `op1` through the handle,
chaining `op2` through `op1`'s `SideEffect`, then undoing `op2` and then
undoing `op1` succeeds at every step and leaves the resource exactly
equal to `s0`. -/
theorem C7_roundtrip_law (S R1 Ru1 R2 Ru2 : Type) (s0 : S)
    (act1 : S → S × R1) (undo1 : S → R1 → S × Ru1)
    (act2 : S → S × R2) (undo2 : S → R2 → S × Ru2)
    (h1 : ∀ s : S, (undo1 (act1 s).1 (act1 s).2).1 = s)
    (h2 : ∀ s : S, (undo2 (act2 s).1 (act2 s).2).1 = s) :
    ∃ (se1 : SideEffect R1 Ru1 S) (c1 : Encased S)
      (se2 : SideEffect R2 Ru2 S) (se1b : SideEffect R1 Ru1 S)
      (c2 : Encased S) (r2 : Ru2) (c3 : Encased S) (r1 : Ru1)
      (c4 : Encased S),
      Encased.peel_mut (Encased.new s0) act1 undo1 = .ok (se1, c1) ∧
      se1.peel_mut c1 act2 undo2 = .ok (se2, se1b, c2) ∧
      se2.undoOp c2 = some (r2, c3) ∧
      se1b.undoOp c3 = some (r1, c4) ∧
      c4.s = s0 := by
  refine ⟨_, _, _, _, _, _, _, _, _, rfl, rfl, rfl, rfl, ?_⟩
  show (undo1 (undo2 (act2 (act1 s0).1).1 (act2 (act1 s0).1).2).1
          (act1 s0).2).1 = s0
  rw [h2]
  exact h1 s0

/-- Witness for C7 at a concrete instance: resource `[1, 2]`, `op1`
appends `7` and compensates by dropping the last element, `op2` appends
`9` likewise; the pipeline succeeds and restores `[1, 2]`. -/
theorem C7_roundtrip_law_witness :
    ∃ (se1 : SideEffect Unit Unit (List Nat)) (c1 : Encased (List Nat))
      (se2 : SideEffect Unit Unit (List Nat))
      (se1b : SideEffect Unit Unit (List Nat))
      (c2 : Encased (List Nat)) (r2 : Unit) (c3 : Encased (List Nat))
      (r1 : Unit) (c4 : Encased (List Nat)),
      Encased.peel_mut (Encased.new [1, 2]) (fun s => (s ++ [7], ()))
          (fun s _ => (s.dropLast, ())) = .ok (se1, c1) ∧
      se1.peel_mut c1 (fun s => (s ++ [9], ()))
          (fun s _ => (s.dropLast, ())) = .ok (se2, se1b, c2) ∧
      se2.undoOp c2 = some (r2, c3) ∧
      se1b.undoOp c3 = some (r1, c4) ∧
      c4.s = [1, 2] :=
  C7_roundtrip_law (List Nat) Unit Unit Unit Unit [1, 2]
    (fun s => (s ++ [7], ())) (fun s _ => (s.dropLast, ()))
    (fun s => (s ++ [9], ())) (fun s _ => (s.dropLast, ()))
    (fun s => by simp) (fun s => by simp)

end Rewind
